import Mathlib

/-!
Verification of the snipai storage / search / embedding core.

This file gives a shallow embedding, in Lean 4, of the parts of the snipai
repository that the verified properties talk about:

* the relational data model (`snipai/src/model/image.py`),
* the time-range filters (`snipai/src/common/types.py`, `TimeFilter.to_date_range`),
* the hybrid search query (`snipai/src/services/storage.py`,
  `StorageService._hybrid_search_images`, no-free-text branch),
* the embedding persistence path (`StorageService._save_image_emb`),
* the tag replacement logic (`StorageService._update_image_tags` and
  `StorageService._save_generated_image_tags_llm`),
* binary quantization of embeddings
  (`snipai/src/services/embed.py`, `EmbeddingService._binary_quantize_embeddings`),
* the background worker loop (`snipai/src/services/base.py`, `BaseService`),
* structured-output parsing (`snipai/src/services/llm.py`,
  `LLMService.with_structured_output` / `LLMService._parse_structured_output`),
* the embedding worker body (`EmbeddingService._process_item`).

Timestamps are modelled as seconds since the Unix epoch (`Nat`); for UTC
datetimes, `datetime(now.year, now.month, now.day)` is the day truncation
`now - now % 86400`.  External model calls (ollama embeddings / chat,
pydantic validation, `json.loads`) are modelled as oracle inputs; the code
translated here is the control flow of the repository around them.
-/

/-! ## Data model (`snipai/src/model/image.py`) -/

/-- A row of the `tag` table: id (uuid string), unique name, and the flag
distinguishing model-generated from user-created tags. -/
structure TagM where
  id : String
  name : String
  is_generated : Bool
deriving DecidableEq, Repr

/-- A row of the `image` table together with its `imagetag` associations,
restricted to the columns the verified properties mention.  `timestamp` is the
capture time, `created_at` the row creation time (both epoch seconds). -/
structure ImageM where
  id : String
  timestamp : Nat
  created_at : Nat
  tags : List TagM
deriving DecidableEq, Repr

/-! ## Time filters (`snipai/src/common/types.py`) -/

/-- The `TimeFilter` enum. -/
inductive TimeFilter where
  | all_time
  | today
  | yesterday
  | this_week
deriving DecidableEq, Repr

/-- Seconds in one day. -/
def secondsPerDay : Nat := 86400

/-- Embeds `datetime(now.year, now.month, now.day, tzinfo=utc)` as epoch seconds:
truncation of `now` to the start of its UTC day. -/
def todayStartOf (now : Nat) : Nat := now - now % secondsPerDay

/-- Embeds `now.weekday()` for an epoch-second clock: Monday is 0; day 0 of the epoch
(1970-01-01) was a Thursday (weekday 3). -/
def daysSinceMonday (now : Nat) : Nat := (now / secondsPerDay + 3) % 7

/-- Embeds `TimeFilter.to_date_range`: optional inclusive lower/upper bounds, computed
from the current time `now`. -/
def to_date_range (now : Nat) : TimeFilter → Option Nat × Option Nat
  | .all_time => (none, none)
  | .today => (some (todayStartOf now), some now)
  | .yesterday =>
      (some (todayStartOf now - secondsPerDay), some (todayStartOf now))
  | .this_week =>
      (some (todayStartOf now - secondsPerDay * daysSinceMonday now), some now)

/-! ## Hybrid search (`StorageService._hybrid_search_images`)

We embed the no-free-text branch of the query builder.  In that branch the
generated SQL is

```
WITH FilteredImages AS (
  SELECT DISTINCT i.*, 1.0 as rank FROM image i
  [INNER JOIN imagetag it ON i.id = it.image_id
   INNER JOIN tag t ON it.tag_id = t.id AND t.name IN (tag_0, ...)]
  WHERE 1=1 [AND i.created_at >= :time_start] [AND i.created_at <= :time_end]
),
TotalCount AS (SELECT COUNT(*) as total_count FROM FilteredImages),
PaginatedResults AS (SELECT * FROM FilteredImages
                     ORDER BY rank ASC, timestamp DESC
                     LIMIT :limit OFFSET :offset)
SELECT r.*, c.total_count FROM PaginatedResults r CROSS JOIN TotalCount c;
```

and the Python wrapper extracts `total_count = results[0][-1] if results else 0`.

The inner join through `imagetag`/`tag` keeps an image iff at least one of its
tags has a name in the supplied list, and `SELECT DISTINCT` collapses the
duplicate rows produced when several tags match; `rank` is the constant `1.0`,
so the ordering is capture timestamp descending. -/

/-- Tag condition of the join: with a non-empty tag list an image row survives
iff some associated tag name is in the list (`t.name IN (...)`); with no tag
list the join is not emitted. -/
def tagPass (tags : List String) (i : ImageM) : Bool :=
  tags.isEmpty || i.tags.any (fun t => tags.contains t.name)

/-- Time condition: inclusive bounds on `created_at` when present. -/
def timePass (time_start time_end : Option Nat) (i : ImageM) : Bool :=
  (match time_start with
   | none => true
   | some a => decide (a ≤ i.created_at)) &&
  (match time_end with
   | none => true
   | some b => decide (i.created_at ≤ b))

/-- The `FilteredImages` CTE: the candidate set after tag and time filters. -/
def hybridFiltered (images : List ImageM) (tags : List String)
    (time_start time_end : Option Nat) : List ImageM :=
  images.filter (fun i => tagPass tags i && timePass time_start time_end i)

/-- Embeds `ORDER BY rank ASC, timestamp DESC` with the constant rank of the
no-free-text branch: capture timestamp descending. -/
def imageOrder (a b : ImageM) : Prop := b.timestamp ≤ a.timestamp

instance : DecidableRel imageOrder := fun a b => Nat.decLe b.timestamp a.timestamp

/-- Embeds `StorageService._hybrid_search_images` (no-free-text branch): returns the
requested page slice and the total count the Python code reports, namely the
count column of the first returned row, or `0` when the page is empty. -/
def hybrid_search_images (images : List ImageM) (tags : List String)
    (time_start time_end : Option Nat) (page per_page : Nat) :
    List ImageM × Nat :=
  let filtered := hybridFiltered images tags time_start time_end
  let sorted := List.insertionSort imageOrder filtered
  let pageRows := (sorted.drop (page * per_page)).take per_page
  let total_count := if pageRows.isEmpty then 0 else filtered.length
  (pageRows, total_count)

/-- Embeds `StorageService.hybrid_search_images`: converts the optional `TimeFilter`
through `to_date_range` and runs the core query. -/
def hybrid_search_images_filter (images : List ImageM) (tags : List String)
    (tf : Option TimeFilter) (now : Nat) (page per_page : Nat) :
    List ImageM × Nat :=
  match tf with
  | none => hybrid_search_images images tags none none page per_page
  | some f =>
      let r := to_date_range now f
      hybrid_search_images images tags r.1 r.2 page per_page

/-! ## Embedding persistence (`StorageService._save_image_emb`)

The vector virtual table `image_embedding` has columns
`(vector_id, image_id, description_embedding)`.  The save path first checks
whether a row with the given `image_id` exists; if so it deletes every such
row, and it then inserts one fresh row with a newly generated `vector_id`.
The serialized vector bytes are modelled by an arbitrary type `α`. -/

/-- One row of the `image_embedding` virtual table. -/
structure EmbRow (α : Type) where
  vector_id : String
  image_id : String
  description_embedding : α
deriving DecidableEq, Repr

/-- Embeds `StorageService._save_image_emb`, acting on the vector table: conditional
delete of all rows keyed by the image id, then insert of one fresh row.
`new_vector_id` models the freshly drawn `uuid4`. -/
def save_image_emb (α : Type) (table : List (EmbRow α))
    (new_vector_id image_id : String) (emb : α) : List (EmbRow α) :=
  let afterDelete :=
    if table.any (fun r => r.image_id == image_id) then
      table.filter (fun r => r.image_id != image_id)
    else
      table
  afterDelete ++ [⟨new_vector_id, image_id, emb⟩]

/-! ## Tag replacement (`StorageService._update_image_tags`,
`StorageService._save_generated_image_tags_llm`)

`_update_image_tags` replaces an image's tag set:

* if the new tag-id set equals the current tag-id set, it returns before any
  write and before any signal emission;
* if the new list is empty, it clears the associations, commits, and emits
  `tag_added(image_id, [])`;
* otherwise it clears the associations and re-adds the requested tags,
  resolving each by name against the `tag` table (reusing the stored row when
  one with the same name exists, adding the fresh row otherwise), commits, and
  emits `tag_added(image_id, [tag.id for tag in updated_tags])` — note that
  the emitted ids are those of the *argument* tags even when stored rows were
  reused.

Python compares `set(...) == set(...)`; we model that set equality on id lists
by mutual containment. -/

/-- Python `set(xs) == set(ys)` for lists of strings. -/
def idSetEq (xs ys : List String) : Bool :=
  xs.all (fun i => ys.contains i) && ys.all (fun i => xs.contains i)

/-- Observable outcome of a tag update: the image's association list, the tag
table, whether a modifying commit ran, and the emitted `tag_added` signals. -/
structure TagUpdateOut where
  imageTags : List TagM
  db : List TagM
  wrote : Bool
  events : List (String × List String)
deriving DecidableEq, Repr

/-- One step of the re-add loop of `_update_image_tags`: look the requested
tag up by name in the tag table; append the stored row when found, otherwise
add the fresh row to the table and append it. -/
def addTagStep (acc : List TagM × List TagM) (tag : TagM) :
    List TagM × List TagM :=
  match acc.2.find? (fun t => t.name == tag.name) with
  | some db_tag => (acc.1 ++ [db_tag], acc.2)
  | none => (acc.1 ++ [tag], acc.2 ++ [tag])

/-- Embeds `StorageService._update_image_tags`. -/
def update_image_tags (db : List TagM) (image_id : String)
    (imageTags : List TagM) (updated_tags : List TagM) : TagUpdateOut :=
  if idSetEq (imageTags.map (·.id)) (updated_tags.map (·.id)) then
    ⟨imageTags, db, false, []⟩
  else if updated_tags.isEmpty then
    ⟨[], db, true, [(image_id, [])]⟩
  else
    let r := updated_tags.foldl addTagStep ([], db)
    ⟨r.1, r.2, true, [(image_id, updated_tags.map (·.id))]⟩

/-- Embeds `StorageService._save_generated_image_tags_llm`: when the structured
response carries a non-empty (hence truthy) `names` list, deduplicate the
names as a set and build fresh `Tag(is_generated=True, name=...)` objects —
each receiving a newly drawn `uuid4` id, modelled by the `fresh` list — and
replace the image's tags with them.  A falsy (empty) `names` list does
nothing. -/
def save_generated_image_tags_llm (db : List TagM) (image_id : String)
    (imageTags : List TagM) (names : List String) (fresh : List String) :
    TagUpdateOut :=
  if names.isEmpty then
    ⟨imageTags, db, false, []⟩
  else
    let tags := (names.dedup.zip fresh).map
      (fun p => ({ id := p.2, name := p.1, is_generated := true } : TagM))
    update_image_tags db image_id imageTags tags

/-! ## Binary quantization (`EmbeddingService._binary_quantize_embeddings`)

For one vector, `np.packbits(v > 0)` maps each coordinate to bit 1 iff it is
strictly positive, packs 8 bits per byte most-significant-bit first, padding
the final byte with zero bits, and `(... - 128).astype(np.int8)` re-centers
each byte value `b ∈ [0, 255]` to the signed value `b - 128 ∈ [-128, 127]`.
Coordinates are modelled as rationals (the comparison with 0 is the only
operation used). -/

/-- A bit as a number, most natural for packing. -/
def toBit (b : Bool) : Nat := if b then 1 else 0

/-- Big-endian packing of a list of bits into a natural number: the head of
the list is the most significant bit. -/
def packByte (bits : List Bool) : Nat :=
  bits.foldl (fun acc b => 2 * acc + toBit b) 0

/-- Split a bit list into chunks of 8, zero-padding the final chunk, with an
explicit structural fuel (any bound on the length). -/
def chunk8Aux : Nat → List Bool → List (List Bool)
  | 0, _ => []
  | _, [] => []
  | fuel + 1, l =>
      (l.take 8 ++ List.replicate (8 - l.length) false) ::
        chunk8Aux fuel (l.drop 8)

/-- Split a bit list into zero-padded chunks of 8. -/
def chunk8 (l : List Bool) : List (List Bool) := chunk8Aux l.length l

/-- Sign pattern of a vector: bit 1 iff the coordinate is strictly positive
(`embeddings > 0`). -/
def signBits (v : List ℚ) : List Bool := v.map (fun x => decide (0 < x))

/-- Embeds `EmbeddingService._binary_quantize_embeddings` on one vector: pack the
sign bits 8 per byte and re-center each byte by subtracting 128. -/
def binary_quantize_embeddings (v : List ℚ) : List Int :=
  (chunk8 (signBits v)).map (fun c => (packByte c : Int) - 128)

/-- The 8 bits of a byte value, most significant first. -/
def byteBits (n : Nat) : List Bool :=
  (List.range 8).map (fun j => decide (n / 2 ^ (7 - j) % 2 = 1))

/-- Recover the first `d` sign bits from quantized bytes by adding 128 back
and unpacking each byte most-significant-bit first. -/
def unquantize_bits (bytes : List Int) (d : Nat) : List Bool :=
  ((bytes.map (fun b => byteBits (b + 128).toNat)).flatten).take d

/-! ## Background worker (`snipai/src/services/base.py`, `BaseService`)

The worker loop is

```
while self._running:
    item = self._queue.get()
    if item is None: break
    try: self._process_item(item)
    except Exception as e: self.error_occurred.emit(str(e), "")
    self._queue.task_done()
```

and `stop()` is: set `_running = False`, put the `None` sentinel, join the
worker thread.  We model the worker as a small-step machine whose position is
either at the loop condition, blocked in `get`, processing an item, or exited;
`handle` gives the events (completions / errors) emitted by processing one
item.  `join` is modelled by running the worker until it exits: with
`_running = False` that takes at most three steps from any position, and the
exited position is absorbing, so three steps always suffice. -/

/-- Position of the worker thread inside the loop. -/
inductive WorkerPos (τ : Type) where
  | atCheck
  | inGet
  | processing (t : τ)
  | exited
deriving DecidableEq, Repr

/-- State of one service: the `_running` flag, the queue contents (`none` is
the stop sentinel), the worker position, and the events emitted so far. -/
structure ServiceState (τ ε : Type) where
  running : Bool
  queue : List (Option τ)
  pos : WorkerPos τ
  events : List ε
deriving Repr

/-- One scheduler step of the worker thread.  At the loop head the `_running`
flag decides between exiting and dequeuing; a blocking `get` on an empty queue
makes no progress; the sentinel breaks the loop; processing an item appends
its events. -/
def workerStep (τ ε : Type) (handle : τ → List ε) (s : ServiceState τ ε) :
    ServiceState τ ε :=
  match s.pos with
  | .exited => s
  | .atCheck =>
      if s.running then { s with pos := .inGet } else { s with pos := .exited }
  | .inGet =>
      match s.queue with
      | [] => s
      | none :: rest => { s with queue := rest, pos := .exited }
      | some t :: rest => { s with queue := rest, pos := .processing t }
  | .processing t =>
      { s with pos := .atCheck, events := s.events ++ handle t }

/-- Embeds `submit` / `save_screenshot` / `encode`: enqueue one task. -/
def submitTask (τ ε : Type) (s : ServiceState τ ε) (t : τ) :
    ServiceState τ ε :=
  { s with queue := s.queue ++ [some t] }

/-- Embeds `BaseService.stop`: clear `_running`, enqueue the sentinel, and join the
worker — i.e. run it to its exit, which takes at most three steps once
`_running` is false. -/
def stopService (τ ε : Type) (handle : τ → List ε) (s : ServiceState τ ε) :
    ServiceState τ ε :=
  let s1 : ServiceState τ ε :=
    { s with running := false, queue := s.queue ++ [none] }
  workerStep τ ε handle (workerStep τ ε handle (workerStep τ ε handle s1))

/-! ## Structured output (`snipai/src/services/llm.py`)

`with_structured_output(model)` builds a *new* `LLMService`: when the argument
is a pydantic `BaseModel` *instance* it stores `model.model_json_schema()` — a
plain dict; otherwise it stores the argument itself, so a JSON-schema dict is
stored as a dict and a model *class* (which is not an `isinstance` of
`BaseModel`) is stored as the class.

`_parse_structured_output(content)` then raises `ValueError` when no format is
configured, calls `json.loads(content)` (turning `JSONDecodeError` into a
descriptive `ValueError`), and calls `self.response_format.model_validate(...)`
(turning pydantic `ValidationError` into a descriptive `ValueError`).  When
`response_format` is a dict, the attribute lookup `model_validate` itself
raises `AttributeError`, which no handler catches.  The outcomes of the two
library calls (`json.loads`, `model_validate`) are oracle inputs. -/

/-- Argument passed to `with_structured_output`. -/
inductive StructuredOutputArg where
  | modelInstance
  | modelClass
  | schemaDict
deriving DecidableEq, Repr

/-- What the new instance's `response_format` holds. -/
inductive RespFormat where
  | schemaDict
  | modelClass
deriving DecidableEq, Repr

/-- Embeds `LLMService.with_structured_output`: the `response_format` of the returned
instance.  `isinstance(model, BaseModel)` holds only for instances, whose
schema (a dict) is stored; classes and dicts are stored as given. -/
def with_structured_output : StructuredOutputArg → RespFormat
  | .modelInstance => .schemaDict
  | .modelClass => .modelClass
  | .schemaDict => .schemaDict

/-- A python exception, as observed by a caller of the helper. -/
inductive PyError where
  | valueError (msg : String)
  | attributeError (msg : String)
deriving DecidableEq, Repr

/-- Oracle outcome of `json.loads(content)`. -/
inductive JsonParse where
  | ok
  | decodeError
deriving DecidableEq, Repr

/-- Oracle outcome of `model_validate` + `model_dump_json` on a model class. -/
inductive SchemaValidate where
  | ok (dumped : String)
  | validationError
deriving DecidableEq, Repr

/-- Embeds `LLMService._parse_structured_output`. -/
def parse_structured_output (fmt : Option RespFormat) (content : String)
    (parse : JsonParse) (validate : SchemaValidate) : Except PyError String :=
  match fmt with
  | none => .error (.valueError "No response format configured")
  | some f =>
    match parse with
    | .decodeError =>
        .error (.valueError ("Invalid JSON in LLM output: " ++ content))
    | .ok =>
      match f with
      | .schemaDict =>
          .error (.attributeError
            "dict object has no attribute model_validate")
      | .modelClass =>
        match validate with
        | .validationError =>
            .error (.valueError
              ("Output does not match expected structure: " ++ content))
        | .ok dumped => .ok dumped

/-! ## Embedding worker body (`EmbeddingService._process_item`)

```
try:
    if request["text"]:
        ... encode, emit embed_completed(request["id"], embeddings_str)
    if request["image"]:
        raise ValueError("Embedding images is not supported yet.")
except Exception as e:
    self.error_occurred.emit(str(e))
```

Python truthiness: `None` and the empty string are falsy.  The result of the
executor-run `self._encode` call is an oracle input (`Except` of an error
message or the embeddings string). -/

/-- Model of `EmbeddingRequest` as built by `EmbeddingService.encode`. -/
structure EmbeddingRequest where
  id : String
  text : Option String
  image : Option String
  retrieval : Bool
deriving DecidableEq, Repr

/-- Signals an `EmbeddingService` can emit while processing one task. -/
inductive EmbEvent where
  | embed_completed (task_id : String) (embeddings : String)
  | error_occurred (msg : String)
deriving DecidableEq, Repr

/-- Python truthiness of an optional string. -/
def truthyStr : Option String → Bool
  | none => false
  | some s => !(s == "")

/-- Embeds `EmbeddingService._process_item`: events emitted for one request, given
the oracle outcome of the `_encode` call. -/
def emb_process_item (req : EmbeddingRequest)
    (encodeResult : Except String String) : List EmbEvent :=
  if truthyStr req.text then
    match encodeResult with
    | .error e => [.error_occurred e]
    | .ok s =>
        if truthyStr req.image then
          [.embed_completed req.id s,
           .error_occurred "Embedding images is not supported yet."]
        else
          [.embed_completed req.id s]
  else
    if truthyStr req.image then
      [.error_occurred "Embedding images is not supported yet."]
    else
      []

/-! ## Concrete instances used by counterexamples and witnesses -/

/-- Tag named `A`. -/
def tagA : TagM := ⟨"tag-a", "A", false⟩

/-- Tag named `B`. -/
def tagB : TagM := ⟨"tag-b", "B", false⟩

/-- Image carrying only tag `A`. -/
def imgOnlyA : ImageM := ⟨"img-a", 30, 0, [tagA]⟩

/-- Image carrying only tag `B`. -/
def imgOnlyB : ImageM := ⟨"img-b", 20, 0, [tagB]⟩

/-- Image carrying both tags `A` and `B`. -/
def imgBoth : ImageM := ⟨"img-ab", 10, 0, [tagA, tagB]⟩

/-- A current time 500 seconds past midnight of epoch day 1000. -/
def bNow : Nat := 1000 * 86400 + 500

/-- An image whose `created_at` is exactly the start of the current day of
`bNow`. -/
def bImg : ImageM := ⟨"img-boundary", 5, 1000 * 86400, []⟩

/-- Pagination instance: first image. -/
def pImg1 : ImageM := ⟨"p1", 30, 0, []⟩

/-- Pagination instance: second image. -/
def pImg2 : ImageM := ⟨"p2", 20, 0, []⟩

/-- Pagination instance: third image. -/
def pImg3 : ImageM := ⟨"p3", 10, 0, []⟩

/-- Pagination instance: three images, no tags, no time bounds. -/
def pImgs : List ImageM := [pImg1, pImg2, pImg3]

/-- A stored user tag named `alpha`. -/
def uTag1 : TagM := ⟨"t-1", "alpha", false⟩

/-- A stored user tag named `beta`. -/
def uTag2 : TagM := ⟨"t-2", "beta", false⟩

/-- A stored user tag named `gamma`, for the generated-tag witness. -/
def gTagStored : TagM := ⟨"t-g", "gamma", false⟩

/-! ## Theorems -/

/-- C1, behavior of the code at the failing input: the images tagged `{A}`,
`{B}` and `{A, B}` are ALL returned by a hybrid search with the tag filter
`[A, B]` — the `t.name IN (...)` join keeps every image carrying at least one
of the listed tags, i.e. union semantics, not the intersection semantics the
claim (and the docstring of `hybrid_search_images`) states. -/
theorem c1_tag_filter_union_eval :
    hybrid_search_images [imgOnlyA, imgOnlyB, imgBoth] ["A", "B"] none none 0 42
      = ([imgOnlyA, imgOnlyB, imgBoth], 3) := by
  rfl

/-- C2 counterexample: an image whose creation timestamp is exactly the start
of the current day is returned by the `Yesterday` hybrid search (and by the
`Today` one) — the upper bound `created_at <= time_end` is inclusive, so the
claim that `Yesterday` excludes it is false on the code. -/
theorem c2_counterexample :
    hybrid_search_images_filter [bImg] [] (some TimeFilter.yesterday) bNow 0 42
        = ([bImg], 1)
    ∧ hybrid_search_images_filter [bImg] [] (some TimeFilter.today) bNow 0 42
        = ([bImg], 1) := by
  exact ⟨rfl, rfl⟩

/-- C4 counterexample: with three images matching the filter and
`per_page = 2`, page 0 reports total count 3 but page 2 — a page past the last
result — reports total count 0, because the Python wrapper reads the count
from the first returned row and returns 0 when the page slice is empty.  The
reported total count is therefore not independent of the requested page. -/
theorem c4_counterexample :
    (hybrid_search_images pImgs [] none none 0 2).2 = 3
    ∧ (hybrid_search_images pImgs [] none none 2 2).2 = 0 := by
  exact ⟨rfl, rfl⟩

/-- Helper for C3: after one run of the embedding-save path, the rows keyed by
the image id are exactly the freshly inserted one. -/
theorem save_image_emb_filter (α : Type) (table : List (EmbRow α))
    (v image_id : String) (e : α) :
    (save_image_emb α table v image_id e).filter
      (fun r => r.image_id == image_id) = [⟨v, image_id, e⟩] := by
  unfold save_image_emb
  rw [List.filter_append]
  have hrow : List.filter (fun r => r.image_id == image_id)
      [(⟨v, image_id, e⟩ : EmbRow α)] = [⟨v, image_id, e⟩] := by
    simp
  rw [hrow]
  have hnil : List.filter (fun r => r.image_id == image_id)
      (if table.any (fun r => r.image_id == image_id) then
        table.filter (fun r => r.image_id != image_id)
      else table) = [] := by
    split
    · rw [List.filter_filter]
      apply List.filter_eq_nil_iff.mpr
      intro a _
      simp only [Bool.and_eq_true, beq_iff_eq, bne_iff_ne, ne_eq]
      rintro ⟨h1, h2⟩
      exact h2 h1
    · next h =>
      apply List.filter_eq_nil_iff.mpr
      intro a ha hpa
      exact h (List.any_eq_true.mpr ⟨a, ha, hpa⟩)
  rw [hnil, List.nil_append]

/-- C3: running the embedding-save path leaves exactly one row for the image
id in the vector table, whatever the prior table contents (hence after any
number of runs), and after two consecutive saves the stored vector is the
second call's vector: the update is delete-then-insert of a fresh row, never
an in-place mutation. -/
theorem c3_save_image_emb_unique (α : Type) (table : List (EmbRow α))
    (v1 v2 image_id : String) (e1 e2 : α) :
    (save_image_emb α table v1 image_id e1).filter
        (fun r => r.image_id == image_id) = [⟨v1, image_id, e1⟩]
    ∧ (save_image_emb α table v1 image_id e1).countP
        (fun r => r.image_id == image_id) = 1
    ∧ (save_image_emb α (save_image_emb α table v1 image_id e1) v2 image_id
        e2).filter (fun r => r.image_id == image_id) = [⟨v2, image_id, e2⟩] := by
  refine ⟨save_image_emb_filter α table v1 image_id e1, ?_, 
    save_image_emb_filter α _ v2 image_id e2⟩
  rw [List.countP_eq_length_filter, save_image_emb_filter α table v1 image_id e1]
  rfl

/-- C5: replacing an image's tag set with a list whose id set equals the
current tag-id set is a no-op — the update returns before any database write
and emits no `tag_added` event. -/
theorem c5_update_image_tags_noop (db : List TagM) (image_id : String)
    (imageTags updated : List TagM)
    (h : idSetEq (imageTags.map (·.id)) (updated.map (·.id)) = true) :
    update_image_tags db image_id imageTags updated
      = ⟨imageTags, db, false, []⟩ := by
  simp [update_image_tags, h]

/-- Witness for C5 at a concrete input: the same two tags in permuted order
have an identical id set, and the update changes nothing and emits nothing. -/
theorem c5_update_image_tags_noop_witness :
    idSetEq ([uTag1, uTag2].map (·.id)) ([uTag2, uTag1].map (·.id)) = true
    ∧ update_image_tags [uTag1, uTag2] "img-1" [uTag1, uTag2] [uTag2, uTag1]
        = ⟨[uTag1, uTag2], [uTag1, uTag2], false, []⟩ :=
  ⟨by decide, c5_update_image_tags_noop [uTag1, uTag2] "img-1" [uTag1, uTag2]
    [uTag2, uTag1] (by decide)⟩

/-- C9: an embedding task whose `text` is `None` or the empty string and whose
`image` is `None` is dequeued and silently discarded — `_process_item` emits
neither an `embed_completed` event nor an `error_occurred` event for it,
whatever the encode oracle would return. -/
theorem c9_empty_request_silent (req : EmbeddingRequest)
    (res : Except String String)
    (htext : req.text = none ∨ req.text = some "")
    (himg : req.image = none) :
    emb_process_item req res = [] := by
  rcases htext with h | h <;> simp [emb_process_item, truthyStr, h, himg]

/-- Witness for C9 at a concrete input: the empty-string-text, no-image
request produces no events even when the encode oracle would succeed. -/
theorem c9_empty_request_silent_witness :
    ((⟨"task-1", some "", none, false⟩ : EmbeddingRequest).text = none
      ∨ (⟨"task-1", some "", none, false⟩ : EmbeddingRequest).text = some "")
    ∧ (⟨"task-1", some "", none, false⟩ : EmbeddingRequest).image = none
    ∧ emb_process_item ⟨"task-1", some "", none, false⟩ (.ok "[0.5 0.25]")
        = [] :=
  ⟨Or.inr rfl, rfl,
    c9_empty_request_silent ⟨"task-1", some "", none, false⟩ (.ok "[0.5 0.25]")
      (Or.inr rfl) rfl⟩

/-- C8, behavior of the code at the failing input: an engine configured
through `with_structured_output` with a JSON-schema dict (as every caller in
the repository does, and likewise when configured from a model instance,
whose schema — a dict — is stored) propagates an `AttributeError` from
`response_format.model_validate` for every successfully JSON-parsed content,
instead of the descriptive `ValueError` the claim requires; only the
JSON-decode failure path yields the descriptive error. -/
theorem c8_structured_parse_unrelated_exception :
    (∀ v, parse_structured_output
        (some (with_structured_output .schemaDict)) "[1]" .ok v
      = .error (.attributeError "dict object has no attribute model_validate"))
    ∧ (∀ v, parse_structured_output
        (some (with_structured_output .modelInstance)) "[1]" .ok v
      = .error (.attributeError "dict object has no attribute model_validate"))
    ∧ parse_structured_output
        (some (with_structured_output .schemaDict)) "not json" .decodeError
        (.ok "ignored")
      = .error (.valueError "Invalid JSON in LLM output: not json") :=
  ⟨fun _ => rfl, fun _ => rfl, rfl⟩

/-- Helper for C7: the exited position is absorbing — the scheduler makes no
step, so no events are appended. -/
theorem workerStep_exited (τ ε : Type) (handle : τ → List ε)
    (s : ServiceState τ ε) (h : s.pos = WorkerPos.exited) :
    workerStep τ ε handle s = s := by
  unfold workerStep
  rw [h]

/-- Helper for C7: after `stop()` the worker has exited, from every position
and queue it could have been at when `stop()` was called. -/
theorem stopService_pos_exited (τ ε : Type) (handle : τ → List ε)
    (s : ServiceState τ ε) :
    (stopService τ ε handle s).pos = WorkerPos.exited := by
  rcases s with ⟨running, queue, pos, events⟩
  cases pos with
  | exited => simp [stopService, workerStep]
  | atCheck => simp [stopService, workerStep]
  | processing t => simp [stopService, workerStep]
  | inGet =>
    rcases queue with _ | ⟨_ | t, rest⟩ <;> simp [stopService, workerStep]

/-- C7: once `stop()` returns the worker thread has exited, and no further
scheduler step changes the state at all — in particular no further completion
or error events are emitted, even if tasks remained queued when `stop()` was
called (the state `s` is arbitrary) and even if further tasks are submitted
afterwards; no task execution is in flight after `stop()` returns. -/
theorem c7_stop_quiescent (τ ε : Type) (handle : τ → List ε)
    (s : ServiceState τ ε) (n : Nat) (t : τ) :
    (stopService τ ε handle s).pos = WorkerPos.exited
    ∧ (workerStep τ ε handle)^[n] (stopService τ ε handle s)
        = stopService τ ε handle s
    ∧ ((workerStep τ ε handle)^[n]
        (submitTask τ ε (stopService τ ε handle s) t)).events
        = (stopService τ ε handle s).events := by
  have hpos := stopService_pos_exited τ ε handle s
  refine ⟨hpos, ?_, ?_⟩
  · exact Function.iterate_fixed (workerStep_exited τ ε handle _ hpos) n
  · have hpos2 : (submitTask τ ε (stopService τ ε handle s) t).pos
        = WorkerPos.exited := hpos
    have hfix : (workerStep τ ε handle)^[n]
        (submitTask τ ε (stopService τ ε handle s) t)
        = submitTask τ ε (stopService τ ε handle s) t :=
      Function.iterate_fixed (workerStep_exited τ ε handle _ hpos2) n
    rw [hfix]
    rfl

/-- Helper for C2: a single image passing the time filter is returned as the
whole result page, with total count 1. -/
theorem hybrid_search_one (img : ImageM) (ts te : Option Nat)
    (hpass : timePass ts te img = true) :
    hybrid_search_images [img] [] ts te 0 42 = ([img], 1) := by
  have hf : hybridFiltered [img] [] ts te = [img] := by
    simp [hybridFiltered, tagPass, hpass]
  unfold hybrid_search_images
  rw [hf]
  rfl

/-- C2 amended: the `Today` range is start-of-today to now and the
`Yesterday` range is start-of-yesterday to start-of-today, both applied as
inclusive bounds on the creation timestamp; consequently an image created at
exactly the start of the current day is included by the `Today` hybrid search
AND by the `Yesterday` hybrid search (the claim said `Yesterday` excludes
it). -/
theorem c2_time_boundary_amended (now : Nat) (img : ImageM)
    (h : img.created_at = todayStartOf now) :
    to_date_range now TimeFilter.today = (some (todayStartOf now), some now)
    ∧ to_date_range now TimeFilter.yesterday
        = (some (todayStartOf now - secondsPerDay), some (todayStartOf now))
    ∧ hybrid_search_images_filter [img] [] (some TimeFilter.today) now 0 42
        = ([img], 1)
    ∧ hybrid_search_images_filter [img] [] (some TimeFilter.yesterday) now 0 42
        = ([img], 1) := by
  refine ⟨rfl, rfl, ?_, ?_⟩
  · show hybrid_search_images [img] [] (some (todayStartOf now)) (some now)
        0 42 = ([img], 1)
    apply hybrid_search_one
    simp only [timePass, h, todayStartOf, secondsPerDay, Bool.and_eq_true,
      decide_eq_true_eq]
    omega
  · show hybrid_search_images [img] []
        (some (todayStartOf now - secondsPerDay)) (some (todayStartOf now))
        0 42 = ([img], 1)
    apply hybrid_search_one
    simp only [timePass, h, todayStartOf, secondsPerDay, Bool.and_eq_true,
      decide_eq_true_eq]
    omega

/-- Witness for C2 amended at a concrete input: midnight of epoch day 2,
observed 100 seconds later. -/
theorem c2_time_boundary_amended_witness :
    (⟨"w-img", 0, 2 * 86400, []⟩ : ImageM).created_at
        = todayStartOf (2 * 86400 + 100)
    ∧ (to_date_range (2 * 86400 + 100) TimeFilter.today
        = (some (todayStartOf (2 * 86400 + 100)), some (2 * 86400 + 100))
      ∧ to_date_range (2 * 86400 + 100) TimeFilter.yesterday
        = (some (todayStartOf (2 * 86400 + 100) - secondsPerDay),
           some (todayStartOf (2 * 86400 + 100)))
      ∧ hybrid_search_images_filter [⟨"w-img", 0, 2 * 86400, []⟩] []
          (some TimeFilter.today) (2 * 86400 + 100) 0 42
        = ([⟨"w-img", 0, 2 * 86400, []⟩], 1)
      ∧ hybrid_search_images_filter [⟨"w-img", 0, 2 * 86400, []⟩] []
          (some TimeFilter.yesterday) (2 * 86400 + 100) 0 42
        = ([⟨"w-img", 0, 2 * 86400, []⟩], 1)) :=
  ⟨by decide, c2_time_boundary_amended (2 * 86400 + 100)
    ⟨"w-img", 0, 2 * 86400, []⟩ (by decide)⟩

/-- C4 amended: the total count and the page slice are computed over the same
filtered set, and for every page whose window starts inside the filtered set
(`page * per_page < |filtered|`, `per_page > 0`) the reported total count
equals the size of the entire filtered set; a page starting past the last
result instead reports total count 0 (the Python wrapper reads the count off
the first returned row).  Pages 0 and 1 slice the same ranked list, their
concatenation being its first `2 * per_page` elements — so their id sets are
disjoint position-wise with union the first `2 * per_page` ranked results. -/
theorem c4_pagination_amended (images : List ImageM) (tags : List String)
    (ts te : Option Nat) (page n : Nat) (hn : 0 < n) :
    (page * n < (hybridFiltered images tags ts te).length →
      (hybrid_search_images images tags ts te page n).2
        = (hybridFiltered images tags ts te).length)
    ∧ ((hybridFiltered images tags ts te).length ≤ page * n →
      (hybrid_search_images images tags ts te page n).2 = 0)
    ∧ (hybrid_search_images images tags ts te 0 n).1
        ++ (hybrid_search_images images tags ts te 1 n).1
        = (hybrid_search_images images tags ts te 0 (2 * n)).1 := by
  have hSlen : (List.insertionSort imageOrder
      (hybridFiltered images tags ts te)).length
      = (hybridFiltered images tags ts te).length :=
    List.length_insertionSort _ _
  refine ⟨?_, ?_, ?_⟩
  · intro h
    show (if (((List.insertionSort imageOrder
        (hybridFiltered images tags ts te)).drop (page * n)).take n).isEmpty
        then 0 else (hybridFiltered images tags ts te).length)
        = (hybridFiltered images tags ts te).length
    have hne : (((List.insertionSort imageOrder
        (hybridFiltered images tags ts te)).drop (page * n)).take n).isEmpty
        = false := by
      rw [Bool.eq_false_iff, Ne, List.isEmpty_iff]
      intro hnil
      have := congrArg List.length hnil
      simp only [List.length_take, List.length_drop, hSlen,
        List.length_nil] at this
      omega
    rw [hne]
    simp
  · intro h
    show (if (((List.insertionSort imageOrder
        (hybridFiltered images tags ts te)).drop (page * n)).take n).isEmpty
        then 0 else (hybridFiltered images tags ts te).length) = 0
    have hemp : ((List.insertionSort imageOrder
        (hybridFiltered images tags ts te)).drop (page * n)) = [] := by
      rw [← List.length_eq_zero]
      simp only [List.length_drop, hSlen]
      omega
    rw [hemp]
    simp
  · show ((List.insertionSort imageOrder
        (hybridFiltered images tags ts te)).drop (0 * n)).take n
      ++ ((List.insertionSort imageOrder
        (hybridFiltered images tags ts te)).drop (1 * n)).take n
      = ((List.insertionSort imageOrder
        (hybridFiltered images tags ts te)).drop (0 * (2 * n))).take (2 * n)
    rw [Nat.zero_mul, Nat.zero_mul, Nat.one_mul, List.drop_zero, two_mul,
      List.take_add]

/-- Witness for C4 amended at a concrete input: three filtered images,
`per_page = 2`; page 1 starts inside the set so it reports total 3, any page
at offset ≥ 3 reports 0, and pages 0 and 1 concatenate to the first 4 ranked
results. -/
theorem c4_pagination_amended_witness :
    0 < 2
    ∧ ((1 * 2 < (hybridFiltered pImgs [] none none).length →
        (hybrid_search_images pImgs [] none none 1 2).2
          = (hybridFiltered pImgs [] none none).length)
      ∧ ((hybridFiltered pImgs [] none none).length ≤ 1 * 2 →
        (hybrid_search_images pImgs [] none none 1 2).2 = 0)
      ∧ (hybrid_search_images pImgs [] none none 0 2).1
          ++ (hybrid_search_images pImgs [] none none 1 2).1
          = (hybrid_search_images pImgs [] none none 0 (2 * 2)).1) :=
  ⟨by decide, c4_pagination_amended pImgs [] none none 1 2 (by decide)⟩

/-- C10: applying a model-generated tag result whose names coincide with the
image's current tag names still goes through the full clear-then-add write
and emits a `tag_added` event: the generated path builds fresh `Tag` objects
with newly drawn uuid ids, so the id-set short-circuit of the update never
fires — idempotence holds by id but not by name.  `fresh` models the drawn
uuids: enough of them for the deduplicated names, and none colliding with an
id the image already carries. -/
theorem c10_generated_tags_always_write (db : List TagM) (image_id : String)
    (imageTags : List TagM) (names : List String) (fresh : List String)
    (hne : names ≠ [])
    (hlen : names.dedup.length ≤ fresh.length)
    (hnames : idSetEq names.dedup (imageTags.map (·.name)) = true)
    (hfresh : ∀ i ∈ fresh, i ∉ imageTags.map (·.id)) :
    (save_generated_image_tags_llm db image_id imageTags names fresh).wrote
        = true
    ∧ (save_generated_image_tags_llm db image_id imageTags names fresh).events
        = [(image_id, (names.dedup.zip fresh).map (fun p => p.2))] := by
  have hni : names.isEmpty = false := by
    rw [Bool.eq_false_iff, Ne, List.isEmpty_iff]
    exact hne
  have hdne : names.dedup ≠ [] := by
    intro h0
    exact hne ((List.dedup_eq_nil names).mp h0)
  have hnames' : (names.dedup.all
      (fun i => (imageTags.map (·.name)).contains i)) = true := by
    have h := hnames
    unfold idSetEq at h
    simp only [Bool.and_eq_true] at h
    exact h.1
  have himgne : imageTags ≠ [] := by
    intro h0
    subst h0
    rcases List.exists_mem_of_ne_nil _ hdne with ⟨a, ha⟩
    have := List.all_eq_true.mp hnames' a ha
    simp at this
  rcases List.exists_mem_of_ne_nil _ himgne with ⟨t0, ht0⟩
  have hx : t0.id ∈ imageTags.map (·.id) := List.mem_map.mpr ⟨t0, ht0, rfl⟩
  have hxnot : t0.id ∉ ((names.dedup.zip fresh).map
      (fun p => ({ id := p.2, name := p.1, is_generated := true } : TagM))).map
      (·.id) := by
    intro hmem
    rcases List.mem_map.mp hmem with ⟨tg, htg, hid⟩
    rcases List.mem_map.mp htg with ⟨p, hp, hptag⟩
    have hsnd : p.2 ∈ fresh := (List.of_mem_zip hp).2
    have htid : tg.id = p.2 := by rw [← hptag]
    rw [← hid, htid] at hx
    exact hfresh p.2 hsnd hx
  have hidle : idSetEq (imageTags.map (·.id))
      (((names.dedup.zip fresh).map
        (fun p => ({ id := p.2, name := p.1, is_generated := true } : TagM))).map
        (·.id)) = false := by
    unfold idSetEq
    apply Bool.and_eq_false_iff.mpr
    left
    apply List.all_eq_false.mpr
    refine ⟨t0.id, hx, ?_⟩
    rw [List.elem_iff]
    exact hxnot
  have htagsne : ((names.dedup.zip fresh).map
      (fun p => ({ id := p.2, name := p.1, is_generated := true } : TagM))).isEmpty
      = false := by
    rcases hd : names.dedup with _ | ⟨a, as⟩
    · exact absurd hd hdne
    · rcases hf : fresh with _ | ⟨f, fs⟩
      · rw [hd, hf] at hlen
        simp at hlen
      · rfl
  unfold save_generated_image_tags_llm
  rw [hni]
  simp only [Bool.false_eq_true, if_false]
  unfold update_image_tags
  rw [hidle]
  simp only [Bool.false_eq_true, if_false]
  rw [htagsne]
  simp only [Bool.false_eq_true, if_false]
  refine ⟨trivial, ?_⟩
  show [(image_id, (((names.dedup.zip fresh).map
      (fun p => ({ id := p.2, name := p.1, is_generated := true } : TagM))).map
      (·.id)))] = _
  rw [List.map_map]
  rfl

/-- Witness for C10 at a concrete input: the model returns the single name
`gamma`, which is exactly the image's current tag name, yet the update writes
and emits `tag_added` with the freshly drawn id. -/
theorem c10_generated_tags_always_write_witness :
    (["gamma"] ≠ ([] : List String)
      ∧ (["gamma"] : List String).dedup.length ≤ ["fresh-1"].length
      ∧ idSetEq (["gamma"] : List String).dedup ([gTagStored].map (·.name))
          = true
      ∧ ∀ i ∈ ["fresh-1"], i ∉ [gTagStored].map (·.id))
    ∧ (save_generated_image_tags_llm [gTagStored] "img-g" [gTagStored]
        ["gamma"] ["fresh-1"]).wrote = true
    ∧ (save_generated_image_tags_llm [gTagStored] "img-g" [gTagStored]
        ["gamma"] ["fresh-1"]).events
        = [("img-g", ((["gamma"] : List String).dedup.zip ["fresh-1"]).map
            (fun p => p.2))] :=
  ⟨⟨by decide, by decide, by decide, by decide⟩,
    c10_generated_tags_always_write [gTagStored] "img-g" [gTagStored]
      ["gamma"] ["fresh-1"] (by decide) (by decide) (by decide) (by decide)⟩

/-- Helper for C6: unpacking a packed byte recovers the 8 bits, and the byte
value fits in 8 bits — checked over all 256 bit patterns. -/
theorem byteBits_packByte8 : ∀ (a b c d e f g h : Bool),
    byteBits (packByte [a, b, c, d, e, f, g, h]) = [a, b, c, d, e, f, g, h]
    ∧ packByte [a, b, c, d, e, f, g, h] ≤ 255 := by decide

/-- Helper for C6: the previous fact for an arbitrary list of length 8. -/
theorem byteBits_packByte_len8 (c : List Bool) (hc : c.length = 8) :
    byteBits (packByte c) = c ∧ packByte c ≤ 255 := by
  rcases c with _ | ⟨b0, _ | ⟨b1, _ | ⟨b2, _ | ⟨b3, _ | ⟨b4, _ | ⟨b5, _ |
    ⟨b6, _ | ⟨b7, _ | ⟨b8, rest⟩⟩⟩⟩⟩⟩⟩⟩⟩
  all_goals first
  | (simp only [List.length_cons, List.length_nil] at hc; omega)
  | (exact byteBits_packByte8 _ _ _ _ _ _ _ _)

/-- Helper for C6: every chunk produced by the padding chunker has length 8. -/
theorem chunkHead_length (l : List Bool) (h : l ≠ []) :
    (l.take 8 ++ List.replicate (8 - l.length) false).length = 8 := by
  rcases l with _ | ⟨x, xs⟩
  · exact absurd rfl h
  · simp only [List.length_append, List.length_take, List.length_replicate,
      List.length_cons]
    omega

/-- Helper for C6: the chunker produces `ceil(len/8)` chunks. -/
theorem chunk8Aux_length (fuel : Nat) : ∀ (l : List Bool), l.length ≤ fuel →
    (chunk8Aux fuel l).length = (l.length + 7) / 8 := by
  induction fuel with
  | zero =>
    intro l hl
    have hnil : l = [] := by
      cases l with
      | nil => rfl
      | cons x xs => simp at hl
    subst hnil
    rfl
  | succ n ih =>
    intro l hl
    rcases l with _ | ⟨x, xs⟩
    · rfl
    · have hdl : ((x :: xs).drop 8).length ≤ n := by
        simp only [List.length_drop, List.length_cons]
        simp only [List.length_cons] at hl
        omega
      have hrec := ih ((x :: xs).drop 8) hdl
      simp only [chunk8Aux, List.length_cons, hrec, List.length_drop]
      omega

/-- Helper for C6: every member of the chunker's output has length 8. -/
theorem chunk8Aux_mem_length (fuel : Nat) : ∀ (l : List Bool)
    (c : List Bool), c ∈ chunk8Aux fuel l → c.length = 8 := by
  induction fuel with
  | zero =>
    intro l c hc
    simp [chunk8Aux] at hc
  | succ n ih =>
    intro l c hc
    rcases l with _ | ⟨x, xs⟩
    · simp [chunk8Aux] at hc
    · simp only [chunk8Aux, List.mem_cons] at hc
      rcases hc with hc | hc
      · subst hc
        exact chunkHead_length (x :: xs) (by simp)
      · exact ih _ _ hc

/-- Helper for C6: flattening the unpacked chunks and truncating to the input
length recovers the input bit list. -/
theorem chunk8Aux_flatten (fuel : Nat) : ∀ (l : List Bool), l.length ≤ fuel →
    (((chunk8Aux fuel l).map (fun c => byteBits (packByte c))).flatten).take
      l.length = l := by
  induction fuel with
  | zero =>
    intro l hl
    have hnil : l = [] := by
      cases l with
      | nil => rfl
      | cons x xs => simp at hl
    subst hnil
    rfl
  | succ n ih =>
    intro l hl
    rcases l with _ | ⟨x, xs⟩
    · rfl
    · simp only [chunk8Aux, List.map_cons, List.flatten_cons]
      have hc0len : ((x :: xs).take 8
          ++ List.replicate (8 - (x :: xs).length) false).length = 8 :=
        chunkHead_length (x :: xs) (by simp)
      rw [(byteBits_packByte_len8 _ hc0len).1]
      by_cases hle : (x :: xs).length ≤ 8
      · have h8 : (x :: xs).take 8 = (x :: xs) := List.take_of_length_le hle
        rw [List.append_assoc, h8]
        exact List.take_left _ _
      · have hpad : 8 - (x :: xs).length = 0 := by
          simp only [List.length_cons]
          simp only [List.length_cons] at hle
          omega
        rw [hpad]
        simp only [List.replicate_zero, List.append_nil]
        have ht8 : ((x :: xs).take 8).length = 8 := by
          simp only [List.length_take, List.length_cons]
          simp only [List.length_cons] at hle
          omega
        have hlen2 : (x :: xs).length
            = ((x :: xs).take 8).length + ((x :: xs).length - 8) := by
          rw [ht8]
          simp only [List.length_cons]
          simp only [List.length_cons] at hle
          omega
        rw [hlen2, List.take_append]
        have hih := ih ((x :: xs).drop 8) (by
          simp only [List.length_drop, List.length_cons]
          simp only [List.length_cons] at hl
          omega)
        rw [List.length_drop] at hih
        rw [hih]
        exact List.take_append_drop 8 (x :: xs)

/-- C6: binary quantization of a vector of dimension `d` produces exactly
`ceil(d/8)` signed bytes, each in the signed 8-bit range `[-128, 127]`
(packing 8 sign bits per byte and re-centering by subtracting 128), and the
sign pattern — bit 1 exactly for the strictly positive coordinates — is
recovered from the quantized bytes by adding 128 back and unpacking the
bits. -/
theorem c6_binary_quantize_roundtrip (v : List ℚ) :
    (binary_quantize_embeddings v).length = (v.length + 7) / 8
    ∧ (binary_quantize_embeddings v).all
        (fun b => decide (-128 ≤ b) && decide (b ≤ 127)) = true
    ∧ unquantize_bits (binary_quantize_embeddings v) v.length = signBits v := by
  have hsv : (signBits v).length = v.length := by simp [signBits]
  refine ⟨?_, ?_, ?_⟩
  · unfold binary_quantize_embeddings chunk8
    rw [List.length_map, chunk8Aux_length _ _ (le_refl _), hsv]
  · apply List.all_eq_true.mpr
    intro b hb
    unfold binary_quantize_embeddings chunk8 at hb
    rcases List.mem_map.mp hb with ⟨c, hc, hbc⟩
    have hclen := chunk8Aux_mem_length _ _ c hc
    have hle := (byteBits_packByte_len8 c hclen).2
    subst hbc
    simp only [Bool.and_eq_true, decide_eq_true_eq]
    omega
  · unfold unquantize_bits binary_quantize_embeddings chunk8
    rw [List.map_map]
    have hcomp : ((fun b : Int => byteBits (b + 128).toNat) ∘
        (fun c : List Bool => (packByte c : Int) - 128))
        = fun c : List Bool => byteBits (packByte c) := by
      funext c
      simp only [Function.comp_apply, sub_add_cancel, Int.toNat_natCast]
    rw [hcomp, ← hsv]
    exact chunk8Aux_flatten _ _ (le_refl _)
